import Mathlib

/-!
Shallow embedding of the stock graph engine in src/main.py.

Conventions of the embedding:
- Calendar dates are Int days since 1970-01-01 (a Thursday); weekday 0 is
  Monday, matching the Python datetime.weekday convention.
- Sample timestamps are Int minutes since the epoch.  The current time of a
  request is modelled as a pair (today, secOfDay): the NY-local calendar day
  and the NY-local second of day, because the market open and close
  comparison in the source is made on full datetimes.
- The America/New_York timezone is modelled as the fixed offset UTC-05:00,
  i.e. NY_OFFSET minutes are added when converting a stored (UTC) minute
  value to a NY-local minute value.
- Prices are rationals; a missing (NaN) Close value is Option.none; NaN
  arithmetic at the /stock endpoint is modelled by Option-lifted operations.
- The yfinance provider is modelled as an oracle from fetch requests to
  either a transport error (a raised exception) or a fetch result, which is
  a possibly tz-naive indexed list of OHLCV samples.
-/

/-- Fixed-offset model of the America/New_York timezone, in minutes. -/
def NY_OFFSET : Int := -300

/-- One row of a provider DataFrame: timestamp (minutes), Open, High, Low,
Close (none models NaN), Volume. -/
structure Sample where
  t : Int
  op : ℚ
  hi : ℚ
  lo : ℚ
  cl : Option ℚ
  vol : Int
deriving DecidableEq

/-- Result of one stock.history call: whether the DatetimeIndex carries a
timezone, and the rows. -/
structure FetchResult where
  tzAware : Bool
  samples : List Sample
deriving DecidableEq

/-- A stock.history request: either start/end dates (Int days) with an
interval, or a named period with an interval. -/
inductive FetchReq where
  | byRange (start stop : Int) (interval : String) (prepost : Bool)
  | byPeriod (period interval : String) (prepost : Bool)
deriving DecidableEq

/-- Python str.upper on the character list (ASCII-faithful, as ticker
strings are ASCII). -/
def pyUpper (s : String) : String := ⟨s.data.map Char.toUpper⟩

/-- Python str.strip: drop leading and trailing whitespace. -/
def pyStrip (s : String) : String :=
  ⟨((s.data.dropWhile Char.isWhitespace).reverse.dropWhile Char.isWhitespace).reverse⟩

/-- tz_localize of a naive index to UTC: the stored wall-clock minutes are
declared to be UTC minutes; the instant is unchanged. -/
def tz_localize_utc (t : Int) : Int := t

/-- tz_convert of a UTC instant to America/New_York local minutes. -/
def tz_convert_ny (t : Int) : Int := t + NY_OFFSET

/-- Lines 260-263: a naive index is first localized to UTC, an aware index
is converted directly; either way the result is NY-local minutes. -/
def localizeTime (aware : Bool) (t : Int) : Int :=
  if aware then tz_convert_ny t else tz_convert_ny (tz_localize_utc t)

/-- Replace the timestamp of a sample by its NY-local value. -/
def normalizeSample (aware : Bool) (s : Sample) : Sample :=
  { s with t := localizeTime aware s.t }

/-- between_time 09:30-16:00 (inclusive on both ends): minute of day between
570 and 960. -/
def inWindow (s : Sample) : Bool :=
  decide (570 ≤ s.t % 1440 ∧ s.t % 1440 ≤ 960)

/-- Lines 260-263: normalize the index to NY local time and keep only rows
whose local time of day is inside the market window. -/
def marketFilter (res : FetchResult) : List Sample :=
  (res.samples.map (normalizeSample res.tzAware)).filter inWindow

/-- The 5-minute bucket containing local minute t (resample 5T label). -/
def bucketOf (t : Int) : Int := 5 * (t.ediv 5)

/-- The rows of the filtered frame that fall in bucket b, in input order. -/
def contributors (l : List Sample) (b : Int) : List Sample :=
  l.filter (fun s => decide (bucketOf s.t = b))

/-- One aggregated resample row. -/
structure Row where
  op : ℚ
  hi : ℚ
  lo : ℚ
  cl : Option ℚ
  vol : Int
deriving DecidableEq

/-- The last non-missing value of a column, as computed by the pandas last
aggregation (NaN values are skipped). -/
def lastSome (l : List (Option ℚ)) : Option ℚ :=
  l.foldl (fun acc o => match o with | some v => some v | none => acc) none

/-- Lines 266-272: the aggregation of one bucket.  first on Open (all Open
values are present in this model), max on High, min on Low, last non-missing
on Close, sum on Volume.  An empty bucket yields no row data. -/
def rowOf : List Sample → Option Row
  | [] => none
  | c :: rest =>
    some { op := c.op
         , hi := rest.foldl (fun a s => max a s.hi) c.hi
         , lo := rest.foldl (fun a s => min a s.lo) c.lo
         , cl := lastSome ((c :: rest).map (fun s => s.cl))
         , vol := ((c :: rest).map (fun s => s.vol)).sum }

/-- Smallest bucket label of a list (none when empty). -/
def bucketMin : List Int → Option Int
  | [] => none
  | x :: xs => some (xs.foldl min x)

/-- Largest bucket label of a list (none when empty). -/
def bucketMax : List Int → Option Int
  | [] => none
  | x :: xs => some (xs.foldl max x)

/-- resample(5T).agg: one output row per 5-minute bucket from the first to
the last occupied bucket, including in-between empty buckets (whose row data
is none, i.e. NaN in every aggregated column). -/
def resampleRows (l : List Sample) : List (Int × Option Row) :=
  match bucketMin (l.map (fun s => bucketOf s.t)),
        bucketMax (l.map (fun s => bucketOf s.t)) with
  | some a, some b =>
      (List.range (((b - a).ediv 5).toNat + 1)).map
        (fun i : Nat => (a + 5 * (i : Int), rowOf (contributors l (a + 5 * (i : Int)))))
  | _, _ => []

/-- len(market_data) after resampling: the number of resample rows,
counted before any row with a missing Close is dropped. -/
def resampleCount (l : List Sample) : Nat := (resampleRows l).length

/-- One element of graph_data: bucket start time (NY-local minutes), price
(the Close), Open, High, Low, Volume. -/
structure Bar where
  time : Int
  price : ℚ
  op : ℚ
  hi : ℚ
  lo : ℚ
  vol : Int
deriving DecidableEq

/-- Lines 294-301: a resample row becomes a graph point unless its Close is
missing (the pd.isna filter); empty buckets have a missing Close. -/
def toBar (p : Int × Option Row) : Option Bar :=
  match p.2 with
  | none => none
  | some r =>
    match r.cl with
    | none => none
    | some c =>
      some { time := p.1, price := c, op := r.op, hi := r.hi, lo := r.lo, vol := r.vol }

/-- The graph points produced from a filtered sample list. -/
def barsOf (l : List Sample) : List Bar := (resampleRows l).filterMap toBar

/-- The complete 1d aggregation applied to one fetch result: timezone
normalization, market-hours filter, 5-minute resample, missing-Close drop. -/
def aggregate1d (res : FetchResult) : List Bar := barsOf (marketFilter res)

/-- Python weekday of an epoch day: Monday = 0 .. Sunday = 6.  Day 0
(1970-01-01) was a Thursday, hence weekday 3. -/
def weekday (d : Int) : Int := (d + 3) % 7

/-- Line 275: pd.Timestamp(target_date) - pd.offsets.BDay(1), the previous
business day in the pandas weekend-aware sense. -/
def prevBDay (d : Int) : Int :=
  if weekday d = 0 then d - 3
  else if weekday d = 6 then d - 2
  else d - 1

/-- Lines 240-252: the target session date for a 1d request, from the
NY-local day and the NY-local second of day. -/
def targetDateOf (today secOfDay : Int) : Int :=
  if weekday today ≥ 5 then today - (weekday today - 4) % 7
  else if 34200 ≤ secOfDay ∧ secOfDay ≤ 57600 then today
  else today - 1

/-- Lines 306-315: the non-1d period table, mapping the requested period to
the provider period and interval, with the default branch for anything
unrecognized. -/
def periodLookup (period : String) : String × String :=
  if period = "7d" then ("7d", "1h")
  else if period = "30d" then ("1mo", "1d")
  else if period = "3mo" then ("3mo", "1d")
  else if period = "1y" then ("1y", "1wk")
  else ("1mo", "1d")

/-- The primary 1d fetch request (line 255). -/
def primReq (target : Int) : FetchReq := .byRange target (target + 1) "1m" true

/-- The fallback 1d fetch request (lines 275-277). -/
def fbReq (target : Int) : FetchReq :=
  .byRange (prevBDay target) (prevBDay target + 1) "1m" true

/-- Lines 254-303: the 1d branch of get_stock_graph, producing graph_data or
propagating a raised provider exception. -/
def body1d (fetch : FetchReq → Except String FetchResult) (target : Int) :
    Except String (List Bar) :=
  match fetch (primReq target) with
  | .error e => .error e
  | .ok res =>
    if res.samples = [] then .ok []
    else
      let md := marketFilter res
      if resampleCount md < 2 then
        match fetch (fbReq target) with
        | .error e => .error e
        | .ok res2 =>
          if res2.samples = [] then .ok []
          else .ok (aggregate1d res2)
      else .ok (barsOf md)

/-- The TypeError message raised by tz_convert on a naive index. -/
def tzNaiveMsg : String :=
  "Cannot convert tz-naive timestamps, use tz_localize to localize"

/-- Lines 305-324: the non-1d branch: one period-table fetch, then a direct
pass-through that converts each index value to NY time and drops rows with a
missing Close.  tz_convert raises if the index is naive and some row
survives the Close filter. -/
def bodyOther (fetch : FetchReq → Except String FetchResult) (period : String) :
    Except String (List Bar) :=
  match fetch (.byPeriod (periodLookup period).1 (periodLookup period).2 false) with
  | .error e => .error e
  | .ok res =>
    if !res.tzAware && res.samples.any (fun s => s.cl.isSome) then .error tzNaiveMsg
    else
      .ok (res.samples.filterMap (fun s =>
        match s.cl with
        | none => none
        | some c =>
          some { time := tz_convert_ny s.t, price := c
               , op := s.op, hi := s.hi, lo := s.lo, vol := s.vol }))

/-- The try-block of get_stock_graph: dispatch on the period. -/
def graphBody (fetch : FetchReq → Except String FetchResult) (period : String)
    (today secOfDay : Int) : Except String (List Bar) :=
  if period = "1d" then body1d fetch (targetDateOf today secOfDay)
  else bodyOther fetch period

/-- The JSON response shapes of /stock_graph: the success payload, the
single-field error object of line 327, the status/error/message object of
lines 339-343, and the missing-ticker object of line 233. -/
inductive Response where
  | success (ticker period : String) (data : List Bar) (lastDay lastSec : Int)
  | notFound (error : String)
  | serverError (error message : String)
  | badRequest (error : String)
deriving DecidableEq

/-- The HTTP status code attached to each response shape. -/
def Response.httpStatus : Response → Nat
  | .success .. => 200
  | .notFound _ => 404
  | .serverError .. => 500
  | .badRequest _ => 400

/-- Whether the JSON object of the response carries a status field. -/
def Response.hasStatusField : Response → Bool
  | .success .. => true
  | .serverError .. => true
  | _ => false

/-- Whether the JSON object of the response carries a message field. -/
def Response.hasMessageField : Response → Bool
  | .serverError .. => true
  | _ => false

/-- Lines 226-343: the /stock_graph handler.  The ticker argument is
uppercased then stripped; a missing argument defaults to the empty string
and the period argument defaults to 1d.  The current time enters as the
NY-local day and second of day. -/
def get_stock_graph (fetch : FetchReq → Except String FetchResult)
    (tickerArg periodArg : Option String) (today secOfDay : Int) : Response :=
  let ticker := pyStrip (pyUpper (tickerArg.getD ""))
  let period := periodArg.getD "1d"
  if ticker = "" then .badRequest "No ticker provided"
  else
    match graphBody fetch period today secOfDay with
    | .error e => .serverError e ("Failed to fetch " ++ period ++ " data for " ++ ticker)
    | .ok gd =>
      if gd = [] then .notFound "No valid data points after processing"
      else .success ticker period gd today secOfDay

/-- The JSON response shapes of /stock.  NaN-valued numeric fields are
modelled as none. -/
inductive StockResponse where
  | success (ticker : String) (price change pctChange : Option ℚ)
      (op hi lo : ℚ) (vol : Int)
  | notFound (error : String)
  | serverError (error : String)
  | badRequest (error : String)
deriving DecidableEq

/-- The HTTP status code attached to each /stock response shape. -/
def StockResponse.httpStatus : StockResponse → Nat
  | .success .. => 200
  | .notFound _ => 404
  | .serverError _ => 500
  | .badRequest _ => 400

/-- Float subtraction with NaN propagation (NaN is none). -/
def fSub : Option ℚ → Option ℚ → Option ℚ
  | some a, some b => some (a - b)
  | _, _ => none

/-- Float division with NaN propagation. -/
def fDiv : Option ℚ → Option ℚ → Option ℚ
  | some a, some b => some (a / b)
  | _, _ => none

/-- Float multiplication with NaN propagation. -/
def fMul : Option ℚ → Option ℚ → Option ℚ
  | some a, some b => some (a * b)
  | _, _ => none

/-- Lines 191-224: the /stock handler.  infoPrevClose is the
regularMarketPreviousClose entry of stock.info when present. -/
def get_stock (fetch : FetchReq → Except String FetchResult)
    (infoPrevClose : Option ℚ) (tickerArg : Option String) : StockResponse :=
  let ticker := pyStrip (pyUpper (tickerArg.getD ""))
  if ticker = "" then .badRequest "No ticker provided"
  else
    match fetch (.byPeriod "1d" "1m" true) with
    | .error _ => .serverError "Failed to process stock data"
    | .ok hist =>
      match hist.samples.getLast? with
      | none => .notFound "No data found for this ticker"
      | some cur =>
        let prevClose : Option ℚ :=
          match infoPrevClose with
          | some v => some v
          | none => cur.cl
        let change := fSub cur.cl prevClose
        let pct := fMul (fDiv change prevClose) (some 100)
        .success ticker cur.cl change pct cur.op cur.hi cur.lo cur.vol

/-!
Concrete fixtures used by witnesses and counterexamples.  Day 19730 is
Monday 2024-01-08; 19727 is Friday 2024-01-05; 19729 is Sunday 2024-01-07;
19735 is Saturday 2024-01-13.  A NY-local minute m on day d is stored as the
UTC minute d * 1440 + m + 300 under the fixed-offset model.
-/

/-- The four samples of the specification scenario, stored as UTC-aware
minutes on day 0: NY-local 09:29, 09:31, 09:33 and 16:05. -/
def scenRes : FetchResult :=
  ⟨true, [⟨869, 100, 100, 100, some 100, 0⟩, ⟨871, 101, 101, 101, some 101, 10⟩,
          ⟨873, 102, 102, 102, some 102, 5⟩, ⟨1265, 103, 103, 103, some 103, 0⟩]⟩

/-- Two in-window samples on Friday 2024-01-05, NY-local 09:43 and 09:53. -/
def fridaySamples : List Sample :=
  [⟨28407780, 1, 1, 1, some 1, 3⟩, ⟨28407790, 2, 2, 2, some 2, 4⟩]

/-- The Friday fetch result. -/
def fridayRes : FetchResult := ⟨true, fridaySamples⟩

/-- The two bars produced from fridayRes. -/
def fridayBars : List Bar :=
  [⟨28407480, 1, 1, 1, 1, 3⟩, ⟨28407490, 2, 2, 2, 2, 4⟩]

/-- One in-window sample on Monday 2024-01-08, NY-local 10:00. -/
def mondaySample : Sample := ⟨28412100, 10, 10, 10, some 10, 1⟩

/-- Two in-window samples on Sunday 2024-01-07 (a date the fallback would
query if it subtracted one calendar day). -/
def sundayRes : FetchResult :=
  ⟨true, [⟨28410660, 7, 7, 7, some 7, 1⟩, ⟨28410670, 8, 8, 8, some 8, 1⟩]⟩

/-- Provider oracle for the C1 counterexample: a sparse Monday primary
session, rich data on both the prior Friday and the prior Sunday, so the
response reveals which date the fallback actually queried. -/
def c1Fetch : FetchReq → Except String FetchResult
  | .byRange st _ _ _ =>
    if st = 19730 then .ok ⟨true, [mondaySample]⟩
    else if st = 19727 then .ok fridayRes
    else if st = 19729 then .ok sundayRes
    else .ok ⟨true, []⟩
  | .byPeriod _ _ _ => .ok ⟨true, []⟩

/-- C1 counterexample: with a Monday primary session (day 19730) whose data
is too sparse, the fallback queried is the preceding Friday 19727, not the
Sunday 19729 that calendar date minus one would give; the served bars are
the Friday bars, not the Sunday bars. -/
theorem C1_cex :
    weekday 19730 = 0 ∧
    prevBDay 19730 = 19727 ∧
    prevBDay 19730 ≠ 19730 - 1 ∧
    weekday (19730 - 1) = 6 ∧
    get_stock_graph c1Fetch (some "AAPL") (some "1d") 19730 36000 =
      .success "AAPL" "1d" fridayBars 19730 36000 ∧
    fridayBars ≠ aggregate1d sundayRes := by
  refine ⟨by decide, by decide, by decide, by decide, by decide, by decide⟩

/-- C1 amended: the fallback session is computed by the pandas weekend-aware
business-day offset: a Tuesday-to-Saturday date falls back one calendar day,
a Monday date falls back three days to the preceding Friday, and a Sunday
date (the target of a pre-open Monday request) falls back two days to the
preceding Friday; the fallback date always lands on a weekday. -/
theorem C1_amended_prevBDay (d : Int) :
    (weekday d = 0 → prevBDay d = d - 3) ∧
    (weekday d = 6 → prevBDay d = d - 2) ∧
    (weekday d = 5 → prevBDay d = d - 1) ∧
    (1 ≤ weekday d ∧ weekday d ≤ 4 → prevBDay d = d - 1) ∧
    0 ≤ weekday (prevBDay d) ∧ weekday (prevBDay d) ≤ 4 := by
  unfold prevBDay weekday
  split_ifs <;> omega

/-- C1 witness: the amended business-day fallback evaluated on the Monday
2024-01-08 and the Sunday 2024-01-07. -/
theorem C1_amended_prevBDay_witness :
    prevBDay 19730 = 19730 - 3 ∧ prevBDay 19729 = 19729 - 2 :=
  ⟨(C1_amended_prevBDay 19730).1 (by decide),
   (C1_amended_prevBDay 19729).2.1 (by decide)⟩

/-- C3: session selection is a pure function of the NY-local instant: on a
Saturday or Sunday the target is the most recent Friday (walk back
(weekday - 4) mod 7 days) whatever the time of day; on a weekday inside
09:30 to 16:00 inclusive the target is today; on a weekday outside that
window the target is today minus one calendar day. -/
theorem C3_session_selection (today s : Int) :
    (5 ≤ weekday today →
      targetDateOf today s = today - (weekday today - 4) % 7 ∧
      weekday (targetDateOf today s) = 4) ∧
    (weekday today < 5 →
      ((34200 ≤ s ∧ s ≤ 57600) → targetDateOf today s = today) ∧
      ((s < 34200 ∨ 57600 < s) → targetDateOf today s = today - 1)) := by
  unfold targetDateOf weekday
  split_ifs <;> constructor <;> intros <;> omega

/-- C3 witness: Saturday 2024-01-13 at midnight maps to Friday 2024-01-12;
Monday 2024-01-08 at 10:00 maps to the same Monday; at 19:26:40 it maps to
Sunday 2024-01-07. -/
theorem C3_session_selection_witness :
    (targetDateOf 19735 0 = 19735 - (weekday 19735 - 4) % 7 ∧
     weekday (targetDateOf 19735 0) = 4) ∧
    targetDateOf 19730 36000 = 19730 ∧
    targetDateOf 19730 70000 = 19730 - 1 :=
  ⟨(C3_session_selection 19735 0).1 (by decide),
   ((C3_session_selection 19730 36000).2 (by decide)).1 (by decide),
   ((C3_session_selection 19730 70000).2 (by decide)).2 (by decide)⟩

/-- C8: every period other than 1d bypasses session selection (the body is
independent of the current time) and the provider is queried through the
fixed table 7d to (7d, 1h), 30d to (1mo, 1d), 3mo to (3mo, 1d), 1y to
(1y, 1wk), with (1mo, 1d) as the default for unrecognized periods. -/
theorem C8_period_table (p : String) (hp : p ≠ "1d") :
    ((p = "7d" → periodLookup p = ("7d", "1h")) ∧
     (p = "30d" → periodLookup p = ("1mo", "1d")) ∧
     (p = "3mo" → periodLookup p = ("3mo", "1d")) ∧
     (p = "1y" → periodLookup p = ("1y", "1wk")) ∧
     (p ≠ "7d" → p ≠ "30d" → p ≠ "3mo" → p ≠ "1y" → periodLookup p = ("1mo", "1d"))) ∧
    ∀ (fetch : FetchReq → Except String FetchResult) (d s d2 s2 : Int),
      graphBody fetch p d s = graphBody fetch p d2 s2 := by
  constructor
  · refine ⟨?_, ?_, ?_, ?_, ?_⟩ <;> intros <;> simp_all [periodLookup]
  · intro fetch d s d2 s2
    unfold graphBody
    simp [hp]

/-- C8 witness: the table evaluated at 7d and at an unrecognized period. -/
theorem C8_period_table_witness :
    periodLookup "7d" = ("7d", "1h") ∧ periodLookup "weird" = ("1mo", "1d") :=
  ⟨((C8_period_table "7d" (by decide)).1).1 rfl,
   ((C8_period_table "weird" (by decide)).1).2.2.2.2
     (by decide) (by decide) (by decide) (by decide)⟩

/-- C10: both handlers uppercase and strip the ticker argument and use it
only through that normalization; when the normalized ticker is empty
(missing, empty or whitespace-only argument) they return the
No-ticker-provided error with HTTP 400 and never consult the provider. -/
theorem C10_ticker_guard :
    (∀ (fetch : FetchReq → Except String FetchResult) (info : Option ℚ)
        (tArg : Option String), pyStrip (pyUpper (tArg.getD "")) = "" →
        get_stock fetch info tArg = .badRequest "No ticker provided" ∧
        (get_stock fetch info tArg).httpStatus = 400) ∧
    (∀ (fetch : FetchReq → Except String FetchResult) (tArg pArg : Option String)
        (today s : Int), pyStrip (pyUpper (tArg.getD "")) = "" →
        get_stock_graph fetch tArg pArg today s = .badRequest "No ticker provided" ∧
        (get_stock_graph fetch tArg pArg today s).httpStatus = 400) ∧
    (∀ (fetch fetch2 : FetchReq → Except String FetchResult) (info : Option ℚ)
        (tArg : Option String), pyStrip (pyUpper (tArg.getD "")) = "" →
        get_stock fetch info tArg = get_stock fetch2 info tArg) ∧
    (∀ (fetch : FetchReq → Except String FetchResult) (info : Option ℚ)
        (t1 t2 : Option String),
        pyStrip (pyUpper (t1.getD "")) = pyStrip (pyUpper (t2.getD "")) →
        get_stock fetch info t1 = get_stock fetch info t2) ∧
    (∀ (fetch : FetchReq → Except String FetchResult) (t1 t2 pArg : Option String)
        (today s : Int),
        pyStrip (pyUpper (t1.getD "")) = pyStrip (pyUpper (t2.getD "")) →
        get_stock_graph fetch t1 pArg today s = get_stock_graph fetch t2 pArg today s) := by
  refine ⟨?_, ?_, ?_, ?_, ?_⟩
  · intro fetch info tArg h
    constructor <;> simp [get_stock, h, StockResponse.httpStatus]
  · intro fetch tArg pArg today s h
    constructor <;> simp [get_stock_graph, h, Response.httpStatus]
  · intro fetch fetch2 info tArg h
    simp [get_stock, h]
  · intro fetch info t1 t2 h
    simp only [get_stock]
    rw [h]
  · intro fetch t1 t2 pArg today s h
    simp only [get_stock_graph]
    rw [h]

/-- C10 witness: a whitespace-only ticker is rejected by both handlers with
the 400 error, independently of the provider, and a lowercase padded ticker
is treated exactly as its uppercased stripped form. -/
theorem C10_ticker_guard_witness :
    get_stock (fun _ => .ok ⟨true, []⟩) none (some "   ") =
      .badRequest "No ticker provided" ∧
    get_stock_graph (fun _ => .ok ⟨true, []⟩) (some "   ") none 19730 36000 =
      .badRequest "No ticker provided" ∧
    get_stock (fun _ => .ok ⟨true, []⟩) none (some " aapl ") =
      get_stock (fun _ => .ok ⟨true, []⟩) none (some "AAPL") :=
  ⟨(C10_ticker_guard.1 (fun _ => .ok ⟨true, []⟩) none (some "   ") (by decide)).1,
   (C10_ticker_guard.2.1 (fun _ => .ok ⟨true, []⟩) (some "   ") none 19730 36000 (by decide)).1,
   C10_ticker_guard.2.2.2.1 (fun _ => .ok ⟨true, []⟩) none (some " aapl ") (some "AAPL") (by decide)⟩

/-- Decidable equality for Except values, used to evaluate the embedded
handlers on concrete inputs. -/
instance exceptDecEq {ε α : Type} [DecidableEq ε] [DecidableEq α] :
    DecidableEq (Except ε α) := fun a b =>
  match a, b with
  | .error e, .error f =>
    if h : e = f then .isTrue (by rw [h]) else .isFalse (by simp [h])
  | .ok x, .ok y =>
    if h : x = y then .isTrue (by rw [h]) else .isFalse (by simp [h])
  | .error _, .ok _ => .isFalse (by simp)
  | .ok _, .error _ => .isFalse (by simp)

/-- Two samples on Monday 2024-01-08 falling in two consecutive 5-minute
buckets (NY-local 10:00 and 10:07), the second with a missing Close, so the
resampled frame has 2 rows but only 1 surviving bar. -/
def mondayTwoBucketRes : FetchResult :=
  ⟨true, [⟨28412100, 10, 10, 10, some 10, 1⟩, ⟨28412107, 11, 11, 11, none, 2⟩]⟩

/-- Oracle for the first C2 scenario: an empty primary Monday fetch and a
rich Friday fallback. -/
def c2aFetch : FetchReq → Except String FetchResult
  | .byRange st _ _ _ =>
    if st = 19730 then .ok ⟨true, []⟩
    else if st = 19727 then .ok fridayRes
    else .ok ⟨true, []⟩
  | .byPeriod _ _ _ => .ok ⟨true, []⟩

/-- Oracle for the second C2 scenario: a Monday primary fetch whose resample
has 2 rows but whose surviving bar count is 1, and a rich Friday fallback. -/
def c2bFetch : FetchReq → Except String FetchResult
  | .byRange st _ _ _ =>
    if st = 19730 then .ok mondayTwoBucketRes
    else if st = 19727 then .ok fridayRes
    else .ok ⟨true, []⟩
  | .byPeriod _ _ _ => .ok ⟨true, []⟩

/-- C2 counterexample.  First scenario: the primary raw fetch is empty (so
the post-drop bar count is 0, below 2) and the fallback session would yield
two bars, yet the code returns the empty sequence without consulting the
fallback.  Second scenario: the primary resample has 2 rows of which only 1
survives the missing-Close drop, so the post-drop count is below 2, yet no
fallback happens and the single primary bar is returned. -/
theorem C2_cex :
    (body1d c2aFetch 19730 = .ok [] ∧
     aggregate1d fridayRes = fridayBars ∧ fridayBars ≠ []) ∧
    (body1d c2bFetch 19730 = .ok [⟨28411800, 10, 10, 10, 10, 1⟩] ∧
     resampleCount (marketFilter mondayTwoBucketRes) = 2 ∧
     (aggregate1d mondayTwoBucketRes).length = 1 ∧
     [(⟨28411800, 10, 10, 10, 10, 1⟩ : Bar)] ≠ fridayBars) := by
  refine ⟨⟨by decide, by decide, by decide⟩, by decide, by decide, by decide, by decide⟩

/-- C2 amended: the 1d result is never a mix of the two sessions, and the
fallback policy is keyed on the resampled row count of the primary session
before missing-Close rows are dropped: if the primary raw fetch is empty the
result is empty with no fallback attempt; if it is non-empty and its
resampled row count is below 2 the result is exactly the aggregated fallback
session (even if also sparse), or empty when the fallback raw fetch is
empty; otherwise the result is exactly the aggregated primary session. -/
theorem C2_amended_fallback (fetch : FetchReq → Except String FetchResult) (target : Int) :
    (∀ res, fetch (primReq target) = .ok res → res.samples = [] →
        body1d fetch target = .ok []) ∧
    (∀ res res2, fetch (primReq target) = .ok res → res.samples ≠ [] →
        resampleCount (marketFilter res) < 2 → fetch (fbReq target) = .ok res2 →
        ((res2.samples = [] → body1d fetch target = .ok []) ∧
         (res2.samples ≠ [] → body1d fetch target = .ok (aggregate1d res2)))) ∧
    (∀ res, fetch (primReq target) = .ok res → res.samples ≠ [] →
        ¬ resampleCount (marketFilter res) < 2 →
        body1d fetch target = .ok (aggregate1d res)) := by
  refine ⟨?_, ?_, ?_⟩
  · intro res hf he
    simp [body1d, hf, he]
  · intro res res2 hf hne hcount hf2
    constructor
    · intro he2
      simp [body1d, hf, hne, hcount, hf2, he2]
    · intro hne2
      simp [body1d, hf, hne, hcount, hf2, hne2]
  · intro res hf hne hcount
    simp [body1d, hf, hne, hcount, aggregate1d]

/-- Oracle for the C2 witness: a sparse Monday primary session and a rich
Friday fallback. -/
def c2wFetch : FetchReq → Except String FetchResult
  | .byRange st _ _ _ =>
    if st = 19730 then .ok ⟨true, [mondaySample]⟩
    else if st = 19727 then .ok fridayRes
    else .ok ⟨true, []⟩
  | .byPeriod _ _ _ => .ok ⟨true, []⟩

/-- C2 witness: the amended fallback policy applied to a concrete sparse
Monday primary and non-empty Friday fallback. -/
theorem C2_amended_fallback_witness :
    body1d c2wFetch 19730 = .ok (aggregate1d fridayRes) :=
  ((C2_amended_fallback c2wFetch 19730).2.1 ⟨true, [mondaySample]⟩ fridayRes
    (by decide) (by decide) (by decide) (by decide)).2 (by decide)

/-- C4: in the 1d aggregation path a timezone-naive index is interpreted as
UTC (it is normalized exactly as an aware UTC index would be), timestamps
are converted to NY-local time, and every sample whose NY-local time of day
falls outside 09:30 to 16:00 inclusive is excluded from the filtered frame
and hence contributes to no bucket and no bar. -/
theorem C4_window_filter :
    (∀ t : Int, localizeTime false t = localizeTime true t) ∧
    (∀ res s, s ∈ marketFilter res → 570 ≤ s.t % 1440 ∧ s.t % 1440 ≤ 960) ∧
    (∀ res b s, s ∈ contributors (marketFilter res) b →
        570 ≤ s.t % 1440 ∧ s.t % 1440 ≤ 960) ∧
    (∀ res s, s ∈ res.samples →
        ¬ (570 ≤ (localizeTime res.tzAware s.t) % 1440 ∧
           (localizeTime res.tzAware s.t) % 1440 ≤ 960) →
        normalizeSample res.tzAware s ∉ marketFilter res) := by
  have hmem : ∀ res s, s ∈ marketFilter res → 570 ≤ s.t % 1440 ∧ s.t % 1440 ≤ 960 := by
    intro res s hs
    rw [marketFilter, List.mem_filter] at hs
    exact of_decide_eq_true hs.2
  refine ⟨fun t => rfl, hmem, ?_, ?_⟩
  · intro res b s hs
    rw [contributors, List.mem_filter] at hs
    exact hmem res s hs.1
  · intro res s _ hout hmem2
    exact hout (hmem res _ hmem2)

/-- C4 witness: the in-window conclusion evaluated on a member of the
filtered Monday frame. -/
theorem C4_window_filter_witness :
    570 ≤ (normalizeSample true mondaySample).t % 1440 ∧
    (normalizeSample true mondaySample).t % 1440 ≤ 960 :=
  C4_window_filter.2.1 ⟨true, [mondaySample]⟩ (normalizeSample true mondaySample)
    (by decide)

/-- Oracle for the C6 counterexample: the primary Monday fetch raises a
transport failure while the Friday fallback session has usable data. -/
def c6Fetch : FetchReq → Except String FetchResult
  | .byRange st _ _ _ =>
    if st = 19730 then .error "boom"
    else if st = 19727 then .ok fridayRes
    else .ok ⟨true, []⟩
  | .byPeriod _ _ _ => .ok ⟨true, []⟩

/-- C6 counterexample: a transport failure on the primary 1d fetch is not
recovered locally; the fallback session is never attempted even though it
holds usable data, and the failure surfaces to the caller as the
status-error response with HTTP 500. -/
theorem C6_cex :
    get_stock_graph c6Fetch (some "AAPL") (some "1d") 19730 36000 =
      .serverError "boom" "Failed to fetch 1d data for AAPL" ∧
    aggregate1d fridayRes ≠ [] ∧
    (get_stock_graph c6Fetch (some "AAPL") (some "1d") 19730 36000).httpStatus = 500 := by
  refine ⟨by decide, by decide, by decide⟩

/-- C6 amended: a transport failure raised by the provider during any 1d
fetch attempt propagates to the single surrounding exception handler and
becomes the status-error response immediately; in particular a failed
primary fetch is never recovered and the fallback session is not attempted
after it. -/
theorem C6_amended_transport (fetch : FetchReq → Except String FetchResult)
    (tA : Option String) (today s : Int) (e : String)
    (ht : pyStrip (pyUpper (tA.getD "")) ≠ "")
    (hf : fetch (primReq (targetDateOf today s)) = .error e) :
    get_stock_graph fetch tA (some "1d") today s =
      .serverError e ("Failed to fetch 1d data for " ++ pyStrip (pyUpper (tA.getD ""))) := by
  simp only [get_stock_graph, graphBody, Option.getD_some, body1d, hf, if_neg ht]
  simp only [reduceIte]
  rfl

/-- C6 witness: the amended propagation law applied to a concrete failing
primary fetch. -/
theorem C6_amended_transport_witness :
    get_stock_graph c6Fetch (some "MSFT") (some "1d") 19730 36000 =
      .serverError "boom" ("Failed to fetch 1d data for " ++ pyStrip (pyUpper ((some "MSFT").getD ""))) :=
  C6_amended_transport c6Fetch (some "MSFT") 19730 36000 "boom" (by decide) (by decide)

/-- Oracle returning an empty result for every request. -/
def emptyFetch : FetchReq → Except String FetchResult := fun _ => .ok ⟨true, []⟩

/-- C7 counterexample: when the processed data sequence is empty the
response is the single-field error object with HTTP 404; it carries neither
a status field nor a message field, so it is not the
status/error/message shape the claim requires. -/
theorem C7_cex :
    get_stock_graph emptyFetch (some "AAPL") (some "1d") 19730 36000 =
      .notFound "No valid data points after processing" ∧
    (get_stock_graph emptyFetch (some "AAPL") (some "1d") 19730 36000).hasStatusField = false ∧
    (get_stock_graph emptyFetch (some "AAPL") (some "1d") 19730 36000).hasMessageField = false ∧
    (get_stock_graph emptyFetch (some "AAPL") (some "1d") 19730 36000).httpStatus = 404 := by
  refine ⟨by decide, by decide, by decide, by decide⟩

/-- C7 amended: whenever processing completes without a raised exception and
leaves an empty data sequence (for any period), the response is the
single-field error object No-valid-data-points with HTTP 404 and without
status or message fields; the status/error/message shape is produced only by
the exception handler. -/
theorem C7_amended_empty (fetch : FetchReq → Except String FetchResult)
    (tA pA : Option String) (today s : Int)
    (ht : pyStrip (pyUpper (tA.getD "")) ≠ "")
    (hb : graphBody fetch (pA.getD "1d") today s = .ok []) :
    get_stock_graph fetch tA pA today s =
      .notFound "No valid data points after processing" ∧
    (get_stock_graph fetch tA pA today s).hasStatusField = false ∧
    (get_stock_graph fetch tA pA today s).hasMessageField = false ∧
    (get_stock_graph fetch tA pA today s).httpStatus = 404 ∧
    (∀ e m, ∀ r : Response, r = .serverError e m → r.hasStatusField = true ∧
      r.hasMessageField = true) := by
  have h : get_stock_graph fetch tA pA today s =
      .notFound "No valid data points after processing" := by
    simp only [get_stock_graph, hb, if_neg ht]
    simp only [reduceIte]
  refine ⟨h, ?_, ?_, ?_, ?_⟩
  · rw [h]; rfl
  · rw [h]; rfl
  · rw [h]; rfl
  · intro e m r hr; rw [hr]; exact ⟨rfl, rfl⟩

/-- C7 witness: the amended empty-data law applied to the all-empty
provider. -/
theorem C7_amended_empty_witness :
    get_stock_graph emptyFetch (some "MSFT") (some "1d") 19730 36000 =
      .notFound "No valid data points after processing" :=
  (C7_amended_empty emptyFetch (some "MSFT") (some "1d") 19730 36000
    (by decide) (by decide)).1

/-- A bar produced from a resample row carries that row's bucket label as
its timestamp. -/
lemma toBar_time {p : Int × Option Row} {b : Bar} (h : toBar p = some b) :
    b.time = p.1 := by
  rcases p with ⟨x, r?⟩
  cases r? with
  | none => simp [toBar] at h
  | some r =>
    cases hc : r.cl with
    | none => simp [toBar, hc] at h
    | some c =>
      simp only [toBar, hc] at h
      rw [← Option.some.inj h]

/-- The timestamps of the produced bars form a sublist of the bucket labels
of the resample rows. -/
lemma filterMap_toBar_time_sublist (L : List (Int × Option Row)) :
    ((L.filterMap toBar).map Bar.time).Sublist (L.map Prod.fst) := by
  induction L with
  | nil => simp
  | cons p T ih =>
    cases hp : toBar p with
    | none =>
      rw [List.filterMap_cons, hp, List.map_cons]
      exact ih.cons _
    | some bar =>
      rw [List.filterMap_cons, hp, List.map_cons, List.map_cons, toBar_time hp]
      exact ih.cons₂ _

/-- The bucket labels of the resample rows are strictly increasing. -/
lemma resampleRows_fst_pairwise (l : List Sample) :
    ((resampleRows l).map Prod.fst).Pairwise (· < ·) := by
  rcases hmin : bucketMin (l.map (fun s => bucketOf s.t)) with _ | a <;>
    rcases hmax : bucketMax (l.map (fun s => bucketOf s.t)) with _ | b <;>
      simp only [resampleRows, hmin, hmax, List.map_map, List.Pairwise.nil, List.map_nil]
  refine List.pairwise_map.mpr ?_
  exact (List.pairwise_lt_range _).imp (fun h => by simp only [Function.comp]; omega)

/-- The bar timestamps produced from any filtered frame are strictly
increasing. -/
lemma barsOf_time_pairwise (l : List Sample) :
    ((barsOf l).map Bar.time).Pairwise (· < ·) :=
  (resampleRows_fst_pairwise l).sublist (filterMap_toBar_time_sublist _)

/-- Every successful 1d body result is either empty or the bars of some
filtered frame. -/
lemma body1d_ok_shape (fetch : FetchReq → Except String FetchResult) (target : Int)
    (l : List Bar) (h : body1d fetch target = .ok l) :
    l = [] ∨ ∃ m, l = barsOf m := by
  cases hf : fetch (primReq target) with
  | error e => simp [body1d, hf] at h
  | ok res =>
    simp only [body1d, hf] at h
    by_cases he : res.samples = []
    · rw [if_pos he] at h
      exact Or.inl (Except.ok.inj h).symm
    · rw [if_neg he] at h
      by_cases hc : resampleCount (marketFilter res) < 2
      · rw [if_pos hc] at h
        cases hf2 : fetch (fbReq target) with
        | error e => simp [hf2] at h
        | ok res2 =>
          simp only [hf2] at h
          by_cases he2 : res2.samples = []
          · rw [if_pos he2] at h
            exact Or.inl (Except.ok.inj h).symm
          · rw [if_neg he2] at h
            exact Or.inr ⟨marketFilter res2, (Except.ok.inj h).symm⟩
      · rw [if_neg hc] at h
        exact Or.inr ⟨marketFilter res, (Except.ok.inj h).symm⟩

/-- C9 amended: for every 1d request, whatever the provider returns, the
data of a successful response is strictly increasing in bucket-start
timestamp with no duplicates.  (For other periods the handler passes the
provider rows through in provider order, so the property holds there only
when the provider sequence is itself ordered.) -/
theorem C9_amended_ordering (fetch : FetchReq → Except String FetchResult)
    (tA : Option String) (today s : Int) (t p : String) (bars : List Bar)
    (d1 d2 : Int)
    (h : get_stock_graph fetch tA (some "1d") today s = .success t p bars d1 d2) :
    (bars.map Bar.time).Pairwise (· < ·) ∧ (bars.map Bar.time).Nodup := by
  have hbars : bars = [] ∨ ∃ m, bars = barsOf m := by
    by_cases ht : pyStrip (pyUpper (tA.getD "")) = ""
    · simp [get_stock_graph, ht] at h
    · simp only [get_stock_graph, Option.getD_some] at h
      rw [if_neg ht] at h
      cases hb : graphBody fetch "1d" today s with
      | error e => simp [hb] at h
      | ok gd =>
        simp only [hb] at h
        by_cases hgd : gd = []
        · rw [if_pos hgd] at h; simp at h
        · rw [if_neg hgd] at h
          injection h with h1 h2 h3 h4 h5
          have hb1 : body1d fetch (targetDateOf today s) = .ok gd := by
            rw [← hb]; simp [graphBody]
          rw [← h3]
          exact body1d_ok_shape fetch (targetDateOf today s) gd hb1
  rcases hbars with rfl | ⟨m, rfl⟩
  · simp
  · exact ⟨barsOf_time_pairwise m,
      (barsOf_time_pairwise m).imp (fun hlt => ne_of_lt hlt)⟩

/-- Two in-window samples on Monday 2024-01-08 (NY-local 10:00 and 10:10)
giving a 3-row resample and two bars. -/
def mondayRichRes : FetchResult :=
  ⟨true, [⟨28412100, 10, 10, 10, some 10, 1⟩, ⟨28412110, 11, 11, 11, some 11, 2⟩]⟩

/-- The two bars produced from mondayRichRes. -/
def mondayBars : List Bar :=
  [⟨28411800, 10, 10, 10, 10, 1⟩, ⟨28411810, 11, 11, 11, 11, 2⟩]

/-- Oracle for the C9 witness: a two-bar Monday primary session. -/
def c9wFetch : FetchReq → Except String FetchResult
  | .byRange st _ _ _ => if st = 19730 then .ok mondayRichRes else .ok ⟨true, []⟩
  | .byPeriod _ _ _ => .ok ⟨true, []⟩

/-- C9 witness: the ordering law applied to a concrete successful 1d
response. -/
theorem C9_amended_ordering_witness :
    (mondayBars.map Bar.time).Pairwise (· < ·) ∧ (mondayBars.map Bar.time).Nodup :=
  C9_amended_ordering c9wFetch (some "AAPL") 19730 36000 "AAPL" "1d" mondayBars
    19730 36000 (by decide)

/-- Oracle for the C9 counterexample: a 7d fetch whose rows arrive in
non-chronological provider order. -/
def c9Fetch : FetchReq → Except String FetchResult
  | .byPeriod pr iv _ =>
    if pr = "7d" ∧ iv = "1h" then
      .ok ⟨true, [⟨1000, 5, 5, 5, some 5, 1⟩, ⟨500, 6, 6, 6, some 6, 2⟩]⟩
    else .ok ⟨true, []⟩
  | .byRange _ _ _ _ => .ok ⟨true, []⟩

/-- C9 counterexample: for a 7d request the handler passes the provider
rows through in provider order, so an out-of-order provider sequence yields
a returned bar sequence that is not strictly increasing in timestamp. -/
theorem C9_cex :
    get_stock_graph c9Fetch (some "AAPL") (some "7d") 19730 36000 =
      .success "AAPL" "7d" [⟨700, 5, 5, 5, 5, 1⟩, ⟨200, 6, 6, 6, 6, 2⟩] 19730 36000 ∧
    ¬ (([⟨700, 5, 5, 5, 5, 1⟩, ⟨200, 6, 6, 6, 6, 2⟩] : List Bar).map Bar.time).Pairwise (· < ·) := by
  refine ⟨by decide, by decide⟩

/-- A left max-fold over a list is the seed or one of the elements. -/
lemma foldl_max_eq_or_mem (a : ℚ) (xs : List ℚ) :
    xs.foldl max a = a ∨ xs.foldl max a ∈ xs := by
  induction xs generalizing a with
  | nil => exact Or.inl rfl
  | cons x t ih =>
    rw [List.foldl_cons]
    rcases ih (max a x) with h | h
    · rcases max_choice a x with hm | hm
      · exact Or.inl (by rw [h, hm])
      · exact Or.inr (by rw [h, hm]; exact List.mem_cons_self x t)
    · exact Or.inr (List.mem_cons_of_mem x h)

/-- A left max-fold bounds its seed and every element from above. -/
lemma le_foldl_max (a : ℚ) (xs : List ℚ) :
    a ≤ xs.foldl max a ∧ ∀ x ∈ xs, x ≤ xs.foldl max a := by
  induction xs generalizing a with
  | nil => exact ⟨le_refl a, by simp⟩
  | cons y t ih =>
    rw [List.foldl_cons]
    rcases ih (max a y) with ⟨h1, h2⟩
    refine ⟨le_trans (le_max_left a y) h1, ?_⟩
    intro x hx
    rcases List.mem_cons.mp hx with rfl | hx
    · exact le_trans (le_max_right a x) h1
    · exact h2 x hx

/-- A left min-fold over a list is the seed or one of the elements. -/
lemma foldl_min_eq_or_mem (a : ℚ) (xs : List ℚ) :
    xs.foldl min a = a ∨ xs.foldl min a ∈ xs := by
  induction xs generalizing a with
  | nil => exact Or.inl rfl
  | cons x t ih =>
    rw [List.foldl_cons]
    rcases ih (min a x) with h | h
    · rcases min_choice a x with hm | hm
      · exact Or.inl (by rw [h, hm])
      · exact Or.inr (by rw [h, hm]; exact List.mem_cons_self x t)
    · exact Or.inr (List.mem_cons_of_mem x h)

/-- A left min-fold bounds its seed and every element from below. -/
lemma foldl_min_le (a : ℚ) (xs : List ℚ) :
    xs.foldl min a ≤ a ∧ ∀ x ∈ xs, xs.foldl min a ≤ x := by
  induction xs generalizing a with
  | nil => exact ⟨le_refl a, by simp⟩
  | cons y t ih =>
    rw [List.foldl_cons]
    rcases ih (min a y) with ⟨h1, h2⟩
    refine ⟨le_trans h1 (min_le_left a y), ?_⟩
    intro x hx
    rcases List.mem_cons.mp hx with rfl | hx
    · exact le_trans h1 (min_le_right a x)
    · exact h2 x hx

/-- When every Close is present, the skip-missing last aggregation picks the
Close of the final element, whatever the accumulator. -/
lemma lastSome_aux : ∀ (cs : List Sample) (acc : Option ℚ),
    (∀ s ∈ cs, (s.cl).isSome) → cs ≠ [] →
    ∃ x, cs.getLast? = some x ∧
      ((cs.map (fun s => s.cl)).foldl
        (fun a o => match o with | some v => some v | none => a) acc) = x.cl
  | [], _, _, hne => absurd rfl hne
  | [c], acc, h, _ => by
      rcases Option.isSome_iff_exists.mp (h c (List.mem_cons_self c [])) with ⟨v, hv⟩
      exact ⟨c, by simp, by simp [hv]⟩
  | c :: c2 :: t2, acc, h, _ => by
      rcases lastSome_aux (c2 :: t2)
          (match c.cl with | some v => some v | none => acc)
          (fun s hs => h s (List.mem_cons_of_mem c hs)) (by simp) with ⟨x, hx1, hx2⟩
      refine ⟨x, ?_, ?_⟩
      · rw [List.getLast?_cons_cons]; exact hx1
      · rw [List.map_cons, List.foldl_cons]; exact hx2

/-- In a list sorted by timestamp, every element is at most the last one. -/
lemma mem_le_getLast : ∀ (cs : List Sample),
    cs.Pairwise (fun a b => a.t ≤ b.t) → ∀ x, cs.getLast? = some x →
    ∀ s ∈ cs, s.t ≤ x.t
  | [], _, x, _, s, hs => absurd hs (List.not_mem_nil s)
  | [c], _, x, hx, s, hs => by
      simp only [List.getLast?_singleton, Option.some.injEq] at hx
      rcases List.mem_singleton.mp hs with rfl
      rw [← hx]
  | c :: c2 :: t2, hp, x, hx, s, hs => by
      rw [List.getLast?_cons_cons] at hx
      rcases List.pairwise_cons.mp hp with ⟨hc, hp2⟩
      rcases List.mem_cons.mp hs with rfl | hs2
      · exact hc x (List.mem_of_mem_getLast? hx)
      · exact mem_le_getLast (c2 :: t2) hp2 x hx s hs2

/-- The row stored for bucket b in the resample output is the aggregation of
the contributors of b. -/
lemma resampleRows_row_eq {l : List Sample} {b : Int} {r? : Option Row}
    (h : (b, r?) ∈ resampleRows l) : r? = rowOf (contributors l b) := by
  rcases hmin : bucketMin (l.map (fun s => bucketOf s.t)) with _ | a
  · simp only [resampleRows, hmin] at h
    exact absurd h (List.not_mem_nil _)
  · rcases hmax : bucketMax (l.map (fun s => bucketOf s.t)) with _ | m
    · simp only [resampleRows, hmin, hmax] at h
      exact absurd h (List.not_mem_nil _)
    · simp only [resampleRows, hmin, hmax] at h
      rcases List.mem_map.mp h with ⟨i, _, heq⟩
      injection heq with h1 h2
      rw [← h1]
      exact h2.symm

/-- C5: the specification scenario produces exactly one bar covering 09:30
to 09:35 with open 101, close 102, high 102, low 101, volume 15 (the 09:29
and 16:05 samples are excluded); and in general, on a chronologically sorted
frame with all Close values present, every non-empty resample bucket reduces
to the open of its first contributing sample, the max of the highs, the min
of the lows, the close of its last contributing sample and the sum of the
volumes, first and last being by timestamp order with ties broken by input
order (input order coincides with timestamp order on a sorted frame). -/
theorem C5_bucket_reduction :
    aggregate1d scenRes = [⟨570, 102, 101, 102, 101, 15⟩] ∧
    ∀ l : List Sample, l.Pairwise (fun a b => a.t ≤ b.t) →
      (∀ s ∈ l, (s.cl).isSome) →
      ∀ b r, (b, some r) ∈ resampleRows l →
        ∃ cfirst clast,
          (contributors l b).head? = some cfirst ∧
          (contributors l b).getLast? = some clast ∧
          r.op = cfirst.op ∧
          r.cl = clast.cl ∧
          r.hi ∈ (contributors l b).map (fun s => s.hi) ∧
          (∀ x ∈ (contributors l b).map (fun s => s.hi), x ≤ r.hi) ∧
          r.lo ∈ (contributors l b).map (fun s => s.lo) ∧
          (∀ x ∈ (contributors l b).map (fun s => s.lo), r.lo ≤ x) ∧
          r.vol = ((contributors l b).map (fun s => s.vol)).sum ∧
          (∀ s ∈ contributors l b, cfirst.t ≤ s.t ∧ s.t ≤ clast.t) := by
  constructor
  · decide
  · intro l hsort hcl b r hmem
    have hrow : rowOf (contributors l b) = some r := (resampleRows_row_eq hmem).symm
    have hsub : (contributors l b).Pairwise (fun a b => a.t ≤ b.t) :=
      hsort.sublist (List.filter_sublist l)
    have hclc : ∀ s ∈ contributors l b, (s.cl).isSome :=
      fun s hs => hcl s (List.mem_of_mem_filter hs)
    rcases hcs : contributors l b with _ | ⟨c, rest⟩
    · rw [hcs] at hrow
      simp [rowOf] at hrow
    · rw [hcs] at hrow hsub hclc
      have hr : ({ op := c.op
                 , hi := rest.foldl (fun a s => max a s.hi) c.hi
                 , lo := rest.foldl (fun a s => min a s.lo) c.lo
                 , cl := lastSome ((c :: rest).map (fun s => s.cl))
                 , vol := ((c :: rest).map (fun s => s.vol)).sum } : Row) = r :=
        Option.some.inj hrow
      rcases lastSome_aux (c :: rest) none hclc (by simp) with ⟨clast, hl1, hl2⟩
      have hmax1 := foldl_max_eq_or_mem c.hi (rest.map (fun s => s.hi))
      have hmax2 := le_foldl_max c.hi (rest.map (fun s => s.hi))
      have hmin1 := foldl_min_eq_or_mem c.lo (rest.map (fun s => s.lo))
      have hmin2 := foldl_min_le c.lo (rest.map (fun s => s.lo))
      rw [List.foldl_map] at hmax1 hmax2 hmin1 hmin2
      rcases List.pairwise_cons.mp hsub with ⟨hchead, _⟩
      refine ⟨c, clast, rfl, hl1, ?_, ?_, ?_, ?_, ?_, ?_, ?_, ?_⟩
      · rw [← hr]
      · rw [← hr]
        exact hl2
      · rw [← hr, List.map_cons]
        rcases hmax1 with h | h
        · rw [h]; exact List.mem_cons_self _ _
        · exact List.mem_cons_of_mem _ h
      · intro x hx
        rw [← hr]
        rw [List.map_cons] at hx
        rcases List.mem_cons.mp hx with rfl | hx2
        · exact hmax2.1
        · exact hmax2.2 x hx2
      · rw [← hr, List.map_cons]
        rcases hmin1 with h | h
        · rw [h]; exact List.mem_cons_self _ _
        · exact List.mem_cons_of_mem _ h
      · intro x hx
        rw [← hr]
        rw [List.map_cons] at hx
        rcases List.mem_cons.mp hx with rfl | hx2
        · exact hmin2.1
        · exact hmin2.2 x hx2
      · rw [← hr]
      · intro s hs
        refine ⟨?_, mem_le_getLast (c :: rest) hsub clast hl1 s hs⟩
        rcases List.mem_cons.mp hs with rfl | hs2
        · exact le_refl s.t
        · exact hchead s hs2

/-- The two in-window scenario samples after normalization, NY-local 09:31
and 09:33. -/
def c5wl : List Sample :=
  [⟨571, 101, 101, 101, some 101, 10⟩, ⟨573, 102, 102, 102, some 102, 5⟩]

/-- C5 witness: the general bucket-reduction law instantiated on the
concrete filtered scenario frame and its single bucket. -/
theorem C5_bucket_reduction_witness :
    ∃ cfirst clast,
      (contributors c5wl 570).head? = some cfirst ∧
      (contributors c5wl 570).getLast? = some clast ∧
      (⟨101, 102, 101, some 102, 15⟩ : Row).op = cfirst.op ∧
      (⟨101, 102, 101, some 102, 15⟩ : Row).cl = clast.cl ∧
      (⟨101, 102, 101, some 102, 15⟩ : Row).hi ∈ (contributors c5wl 570).map (fun s => s.hi) ∧
      (∀ x ∈ (contributors c5wl 570).map (fun s => s.hi),
        x ≤ (⟨101, 102, 101, some 102, 15⟩ : Row).hi) ∧
      (⟨101, 102, 101, some 102, 15⟩ : Row).lo ∈ (contributors c5wl 570).map (fun s => s.lo) ∧
      (∀ x ∈ (contributors c5wl 570).map (fun s => s.lo),
        (⟨101, 102, 101, some 102, 15⟩ : Row).lo ≤ x) ∧
      (⟨101, 102, 101, some 102, 15⟩ : Row).vol =
        ((contributors c5wl 570).map (fun s => s.vol)).sum ∧
      (∀ s ∈ contributors c5wl 570, cfirst.t ≤ s.t ∧ s.t ≤ clast.t) :=
  C5_bucket_reduction.2 c5wl (by decide) (by decide) 570
    ⟨101, 102, 101, some 102, 15⟩ (by decide)
